import Mathlib

/-!
Verification development for the fraud-detection Neo4j import script
(`import_fraud_to_neo4j.py`).  The script builds a property graph of
clients, identifiers (SSN / phone / email), transactions and fraud flags,
then derives per-node degrees (STEP 20), a weighted SHARED_IDENTIFIERS
edge per pair of clients sharing an identifier (STEP 21), and answers
aggregate fraud queries (STEP 22).

The graph store and the Cypher queries are shallowly embedded: a graph is
a list of nodes and a list of directed typed edges; each Cypher query of
the script becomes a Lean function over this representation.  Neo4j
internal node ids (`id(n)`) are modelled by the field `nid : Nat`; the
`id` property set from the CSVs is the field `eid : Nat`.  The float
weights 1.0 / 1.5 / 5.0 of STEP 21 and their sums are exact in IEEE
doubles (all are small multiples of 0.5), so they are modelled exactly by
rationals.
-/

set_option maxRecDepth 1000000

unseal Rat.add Rat.mul Rat.inv Rat.sub

namespace FraudImport

/-- Node labels of the import (STEPs 6-13). -/
inductive Variant where
  | Client | SSN | Phone | Email | Merchant | Bank | Mule | Transaction
deriving DecidableEq

/-- Relationship types of the import (STEPs 14-18 and 21). -/
inductive RelType where
  | HAS_SSN | HAS_PHONE | HAS_EMAIL | PERFORMED | FLAGGED_AS | SHARED_IDENTIFIERS
deriving DecidableEq

/-- A node: label, Neo4j-internal id `nid`, `id` property `eid`, and the
degree properties written by STEP 20 (absent until annotation runs). -/
structure Node where
  variant : Variant
  nid : Nat
  eid : Nat
  out_degree : Option Nat := none
  in_degree : Option Nat := none
deriving DecidableEq

/-- A directed relationship; `count` / `weight` are the properties carried
by SHARED_IDENTIFIERS edges (STEP 21) and absent on all direct edges. -/
structure Edge where
  src : Nat
  typ : RelType
  tgt : Nat
  count : Option Nat := none
  weight : Option Rat := none
deriving DecidableEq

/-- The property graph held by the store. -/
structure Graph where
  nodes : List Node
  edges : List Edge
deriving DecidableEq

/-- Internal ids of the `:Client` nodes of a node list. -/
def clientNidsOf (nds : List Node) : List Nat :=
  (nds.filter (fun nd => decide (nd.variant = Variant.Client))).map (fun nd => nd.nid)

/-- Internal ids of the `:Client` nodes of a graph. -/
def clientNids (g : Graph) : List Nat := clientNidsOf g.nodes

/-- Internal ids of the `:SSN` nodes of a graph. -/
def ssnNids (g : Graph) : List Nat :=
  (g.nodes.filter (fun nd => decide (nd.variant = Variant.SSN))).map (fun nd => nd.nid)

/-- The three identifier-holding relationship types of the STEP 21 pattern
`[:HAS_EMAIL|HAS_PHONE|HAS_SSN]`. -/
def isIdType : RelType → Bool
  | RelType.HAS_SSN => true
  | RelType.HAS_PHONE => true
  | RelType.HAS_EMAIL => true
  | _ => false

/-- The CASE weight table of STEP 21 (lines 528-533): email 1.0,
phone 1.5, ssn 5.0, anything else 0. -/
def weightOf : RelType → Rat
  | RelType.HAS_EMAIL => 1
  | RelType.HAS_PHONE => 3 / 2
  | RelType.HAS_SSN => 5
  | _ => 0

/-- The identifier-holding edges of an edge list. -/
def idEdgesOf (es : List Edge) : List Edge := es.filter (fun e => isIdType e.typ)

/-- The SHARED_IDENTIFIERS edges of an edge list. -/
def sEdgesOf (es : List Edge) : List Edge :=
  es.filter (fun e => decide (e.typ = RelType.SHARED_IDENTIFIERS))

/-! ## STEP 20 — node degree annotation (lines 502-513)

`MATCH (n) WITH n, COUNT { (n)-->() } as out_degree,
COUNT { (n)<--() } as in_degree SET n.out_degree = out_degree,
n.in_degree = in_degree` -/

/-- Number of relationships of any type whose source is `n`. -/
def outDegE (es : List Edge) (n : Nat) : Nat :=
  (es.filter (fun e => decide (e.src = n))).length

/-- Number of relationships of any type whose target is `n`. -/
def inDegE (es : List Edge) (n : Nat) : Nat :=
  (es.filter (fun e => decide (e.tgt = n))).length

/-- The STEP 20 query: every node (`MATCH (n)` is unconditional, so
degree-0 nodes are included) gets its out- and in-degree, counted over all
relationship types, written into its properties. -/
def annotateDegrees (g : Graph) : Graph :=
  { g with
    nodes := g.nodes.map (fun nd =>
      { nd with
        out_degree := some (outDegE g.edges nd.nid)
        in_degree := some (inDegE g.edges nd.nid) }) }

/-! ## STEP 14 — create_has_ssn (lines 360-368)

`UNWIND $rels AS rel MATCH (c:Client {id: rel.client_id})
MATCH (s:SSN {id: rel.ssn_id}) MERGE (c)-[:HAS_SSN]->(s)`

A row whose `client_id` or `ssn_id` matches no node produces zero rows for
both MATCH clauses, so the MERGE never fires for it and the UNWIND simply
continues with the next row.  The `id` uniqueness constraints of STEP 4
guarantee at most one match, embedded here with `List.find?`. -/

/-- Lookup of `MATCH (c:Client {id: cid})` (unique by the STEP 4 constraint). -/
def findClientByEid (g : Graph) (cid : Nat) : Option Node :=
  g.nodes.find? (fun nd => decide (nd.variant = Variant.Client ∧ nd.eid = cid))

/-- Lookup of `MATCH (s:SSN {id: sid})` (unique by the STEP 4 constraint). -/
def findSSNByEid (g : Graph) (sid : Nat) : Option Node :=
  g.nodes.find? (fun nd => decide (nd.variant = Variant.SSN ∧ nd.eid = sid))

/-- `MERGE` match of a propertyless relationship pattern
`(a)-[:t]->(b)`: does any edge with this source, type and target exist? -/
def hasPlainEdge (g : Graph) (a : Nat) (t : RelType) (b : Nat) : Bool :=
  g.edges.any (fun e => decide (e.src = a ∧ e.typ = t ∧ e.tgt = b))

/-- One UNWIND row of STEP 14: the row `(client_id, ssn_id)` is resolved
against the current graph; when both endpoints exist, the HAS_SSN edge is
merged (created unless already present); otherwise the MATCH clauses
produce no rows and the row is a no-op. -/
def hasSSNStep (g2 : Graph) (rel : Nat × Nat) : Graph :=
  match findClientByEid g2 rel.1, findSSNByEid g2 rel.2 with
  | some c, some s =>
      if hasPlainEdge g2 c.nid RelType.HAS_SSN s.nid = true then g2
      else { g2 with edges := g2.edges ++ [{ src := c.nid, typ := RelType.HAS_SSN, tgt := s.nid }] }
  | _, _ => g2

/-- The STEP 14 transaction body as the fold of `hasSSNStep` over the
rows. -/
def create_has_ssn (g : Graph) (rels : List (Nat × Nat)) : Graph :=
  rels.foldl hasSSNStep g

/-- The count printed by STEP 14 (line 372): `len(data['client_has_ssn'])`,
i.e. the raw number of input rows, independent of how many edges were
actually created. -/
def create_has_ssn_report (rels : List (Nat × Nat)) : Nat := rels.length

/-! ## STEP 21 — SHARED_IDENTIFIERS creation (lines 522-539)

`MATCH (c1:Client)-[r:HAS_EMAIL|HAS_PHONE|HAS_SSN]->(n)
      <-[r2:HAS_EMAIL|HAS_PHONE|HAS_SSN]-(c2:Client)
 WHERE id(c1) < id(c2)
 WITH c1, c2, count(*) as cnt, SUM(CASE ... END) AS weight
 MERGE (c1)-[:SHARED_IDENTIFIERS {count: cnt, weight: weight}]->(c2)` -/

/-- The match rows of the STEP 21 pattern for a fixed client pair: one row
per pair of identifier-holding edges `(r, r2)` with a common target `n`;
each row is recorded as the pair of the two relationship types (the CASE
weight only inspects `type(r)`, the first component). -/
def contribs (es : List Edge) (c1 c2 : Nat) : List (RelType × RelType) :=
  es.flatMap (fun e1 =>
    if e1.src = c1 then
      es.filterMap (fun e2 =>
        if e2.src = c2 ∧ e2.tgt = e1.tgt then some (e1.typ, e2.typ) else none)
    else [])

/-- One aggregated row of the STEP 21 `WITH` clause. -/
structure PairRow where
  c1 : Nat
  c2 : Nat
  cnt : Nat
  weight : Rat
deriving DecidableEq

/-- The aggregated rows of STEP 21 over explicit client-id and
identifier-edge lists: for every pair with `id(c1) < id(c2)` and at least
one match row, `cnt = count(*)` and `weight` the CASE sum over `type(r)`. -/
def pairRowsAux (cs : List Nat) (es : List Edge) : List PairRow :=
  cs.flatMap (fun c1 =>
    cs.filterMap (fun c2 =>
      if c1 < c2 then
        if (contribs es c1 c2).length = 0 then none
        else some
          { c1 := c1, c2 := c2, cnt := (contribs es c1 c2).length,
            weight := ((contribs es c1 c2).map (fun p => weightOf p.1)).sum }
      else none))

/-- The aggregated rows of STEP 21 for a graph. -/
def pairRows (g : Graph) : List PairRow := pairRowsAux (clientNids g) (idEdgesOf g.edges)

/-- The edge the STEP 21 MERGE pattern describes for a row. -/
def sharedEdgeFor (r : PairRow) : Edge :=
  { src := r.c1, typ := RelType.SHARED_IDENTIFIERS, tgt := r.c2,
    count := some r.cnt, weight := some r.weight }

/-- MERGE match test of STEP 21: the pattern carries the properties, so an
existing edge matches only when source, target, `count` and `weight` all
agree. -/
def hasSharedEdge (g : Graph) (r : PairRow) : Bool :=
  g.edges.any (fun e => decide (e = sharedEdgeFor r))

/-- One MERGE execution of STEP 21: reuse a fully matching edge, otherwise
create the edge of the pattern. -/
def mergeSharedEdge (g : Graph) (r : PairRow) : Graph :=
  if hasSharedEdge g r = true then g
  else { g with edges := g.edges ++ [sharedEdgeFor r] }

/-- The whole STEP 21 query: the aggregation rows are computed against the
matched (identifier) edges, then MERGE runs once per row. -/
def rebuildIdentityLinks (g : Graph) : Graph :=
  (pairRows g).foldl mergeSharedEdge g

/-! ## STEP 22 — final fraud queries (lines 547-576) -/

/-- Cypher `max(...)` aggregation over the listed values: `null` on zero
rows, otherwise the maximum. -/
def maxAgg : List Nat → Option Nat
  | [] => none
  | x :: xs =>
    match maxAgg xs with
    | none => some x
    | some m => some (max x m)

/-- Rows of `MATCH (s:SSN)<-[:HAS_SSN]-(c:Client) WITH s, count(c) as
client_count` for one SSN node: the number of HAS_SSN edges from a Client
to it. -/
def holderCountSSN (g : Graph) (s : Nat) : Nat :=
  (g.edges.filter (fun e =>
    decide (e.typ = RelType.HAS_SSN ∧ e.tgt = s ∧ e.src ∈ clientNids g))).length

/-- The shared-SSN statistics query of STEP 22 (lines 549-554): over SSN
nodes with `client_count > 1`, returns `(count(s), max(client_count))`. -/
def sharedSSNStats (g : Graph) : Nat × Option Nat :=
  (((ssnNids g).filterMap (fun s =>
      if 1 < holderCountSSN g s then some (holderCountSSN g s) else none)).length,
    maxAgg ((ssnNids g).filterMap (fun s =>
      if 1 < holderCountSSN g s then some (holderCountSSN g s) else none)))

/-- Endpoint pairs of the SHARED_IDENTIFIERS edges, the relationships the
variable-length pattern of the largest-ring query may traverse. -/
def sharedPairs (g : Graph) : List (Nat × Nat) :=
  (sEdgesOf g.edges).map (fun e => (e.src, e.tgt))

/-- Every way of choosing one element of a list together with the
remaining elements (positions are kept distinct, so parallel edges stay
distinct relationships). -/
def picks {α : Type} : List α → List (α × List α)
  | [] => []
  | x :: xs => (x, xs) :: (picks xs).map (fun p => (p.1, x :: p.2))

/-- Endpoints of all nonempty relationship-distinct undirected walks
(Cypher variable-length path semantics: relationships may not repeat
within a path, nodes may) starting at `cur`, using edges from `avail`.
`fuel = avail.length` suffices since a path cannot repeat a relationship. -/
def trailEndsFrom : Nat → List (Nat × Nat) → Nat → List Nat
  | 0, _, _ => []
  | Nat.succ fuel, avail, cur =>
    (picks avail).flatMap (fun p =>
      if p.1.1 = cur then p.1.2 :: trailEndsFrom fuel p.2 p.1.2
      else if p.1.2 = cur then p.1.1 :: trailEndsFrom fuel p.2 p.1.1
      else [])

/-- One row of the largest-ring query (lines 570-574) for client `c`:
`collect(DISTINCT connected) + [c]` has `size` = (number of distinct
clients reachable by a path of one or more SHARED_IDENTIFIERS edges) + 1;
the row exists only when the MATCH produced at least one path. -/
def ringRow (g : Graph) (c : Nat) : Option Nat :=
  ((trailEndsFrom (sharedPairs g).length (sharedPairs g) c).filter
      (fun x => decide (x ∈ clientNids g))).dedup.length |> fun k =>
    if k = 0 then none else some (k + 1)

/-- The largest-fraud-ring query of STEP 22 (lines 570-574):
`MATCH (c:Client)-[:SHARED_IDENTIFIERS*]-(connected:Client)
 WITH c, collect(DISTINCT connected) + [c] as fraud_ring
 RETURN max(size(fraud_ring)) as largest_ring_size`. -/
def largestRingSize (g : Graph) : Option Nat :=
  maxAgg ((clientNids g).filterMap (ringRow g))

/-! ## Observations used to state the claims -/

/-- The SHARED_IDENTIFIERS edges between the unordered client pair
`{a, b}` (either direction). -/
def sEdgesBetween (g : Graph) (a b : Nat) : List Edge :=
  (sEdgesOf g.edges).filter (fun e =>
    decide ((e.src = a ∧ e.tgt = b) ∨ (e.src = b ∧ e.tgt = a)))

/-- Stated from the spec wording of the ring notion: the distinct clients
of the ring of `c` — `c` itself together with every client reachable from
it over SHARED_IDENTIFIERS edges, each counted once. -/
def distinctRingClients (g : Graph) (c : Nat) : List Nat :=
  (c :: (trailEndsFrom (sharedPairs g).length (sharedPairs g) c).filter
      (fun x => decide (x ∈ clientNids g))).dedup

/-- Internal ids of the identifier nodes of all three identifier types. -/
def identifierNids (g : Graph) : List Nat :=
  (g.nodes.filter (fun nd =>
    decide (nd.variant = Variant.SSN ∨ nd.variant = Variant.Phone ∨
      nd.variant = Variant.Email))).map (fun nd => nd.nid)

/-- Distinct clients holding an identifier-type edge to node `s`. -/
def distinctHolders (g : Graph) (s : Nat) : List Nat :=
  ((clientNids g).filter (fun c =>
    g.edges.any (fun e => isIdType e.typ && decide (e.src = c ∧ e.tgt = s)))).dedup

/-- Stated from the claim wording of `sharedIdentifierStats`: over the
identifier nodes of every type (SSN, Phone, Email) held by at least two
clients, the total count of such identifiers and the maximum holder count.
Used only to compare the claim against `sharedSSNStats`, the query the
script actually runs. -/
def specSharedIdentifierStats (g : Graph) : Nat × Option Nat :=
  (((identifierNids g).filterMap (fun s =>
      if 1 < (distinctHolders g s).length then some (distinctHolders g s).length else none)).length,
    maxAgg ((identifierNids g).filterMap (fun s =>
      if 1 < (distinctHolders g s).length then some (distinctHolders g s).length else none)))

/-- STEP 20 postcondition: every node of `g1` carries exactly the in- and
out-degree counted over the edge list of `g0`. -/
def degreesFrom (g0 g1 : Graph) : Prop :=
  ∀ nd ∈ g1.nodes,
    nd.out_degree = some (outDegE g0.edges nd.nid) ∧
    nd.in_degree = some (inDegE g0.edges nd.nid)

/-- Frame property of STEP 21: every edge either already existed in `g0`
or is a derived SHARED_IDENTIFIERS edge. -/
def onlyDirectOrShared (g0 g1 : Graph) : Prop :=
  ∀ e ∈ g1.edges, e ∈ g0.edges ∨ e.typ = RelType.SHARED_IDENTIFIERS

/-- Invariant of the derived edges: no self-pair, `count ≥ 1`,
`weight > 0`. -/
def allSharedWellFormed (g : Graph) : Prop :=
  ∀ e ∈ g.edges, e.typ = RelType.SHARED_IDENTIFIERS →
    e.src ≠ e.tgt ∧ (∃ k, e.count = some k ∧ 1 ≤ k) ∧ (∃ w, e.weight = some w ∧ 0 < w)

/-- Invariant of the derived edges: at most one SHARED_IDENTIFIERS edge
per unordered client pair. -/
def atMostOnePerPair (g : Graph) : Prop :=
  ∀ e1 ∈ g.edges, ∀ e2 ∈ g.edges,
    e1.typ = RelType.SHARED_IDENTIFIERS → e2.typ = RelType.SHARED_IDENTIFIERS →
    ((e1.src = e2.src ∧ e1.tgt = e2.tgt) ∨ (e1.src = e2.tgt ∧ e1.tgt = e2.src)) →
    e1 = e2

/-- The `max(client_count)` component of `sharedSSNStats` bounds every
qualifying SSN holder count. -/
def ssnStatsMaxBound (g : Graph) : Prop :=
  ∀ s ∈ ssnNids g, 1 < holderCountSSN g s →
    ∃ m, (sharedSSNStats g).2 = some m ∧ holderCountSSN g s ≤ m

/-! ## Concrete graphs for the scenario, counterexamples and witnesses -/

/-- The spec scenario: clients 1, 2, 3 hold SSN node 10, clients 1 and 4
hold phone node 20 (no SHARED_IDENTIFIERS edges yet). -/
def gScenario : Graph :=
  { nodes := [{ variant := Variant.Client, nid := 1, eid := 1 },
              { variant := Variant.Client, nid := 2, eid := 2 },
              { variant := Variant.Client, nid := 3, eid := 3 },
              { variant := Variant.Client, nid := 4, eid := 4 },
              { variant := Variant.SSN, nid := 10, eid := 10 },
              { variant := Variant.Phone, nid := 20, eid := 20 }],
    edges := [{ src := 1, typ := RelType.HAS_SSN, tgt := 10 },
              { src := 2, typ := RelType.HAS_SSN, tgt := 10 },
              { src := 3, typ := RelType.HAS_SSN, tgt := 10 },
              { src := 1, typ := RelType.HAS_PHONE, tgt := 20 },
              { src := 4, typ := RelType.HAS_PHONE, tgt := 20 }] }

/-- Two clients and no relationships at all. -/
def gTwoClients : Graph :=
  { nodes := [{ variant := Variant.Client, nid := 1, eid := 1 },
              { variant := Variant.Client, nid := 2, eid := 2 }],
    edges := [] }

/-- Clients 1 and 2 share exactly one SSN (node 10) and one phone
(node 20). -/
def gSharedPair : Graph :=
  { nodes := [{ variant := Variant.Client, nid := 1, eid := 1 },
              { variant := Variant.Client, nid := 2, eid := 2 },
              { variant := Variant.SSN, nid := 10, eid := 10 },
              { variant := Variant.Phone, nid := 20, eid := 20 }],
    edges := [{ src := 1, typ := RelType.HAS_SSN, tgt := 10 },
              { src := 2, typ := RelType.HAS_SSN, tgt := 10 },
              { src := 1, typ := RelType.HAS_PHONE, tgt := 20 },
              { src := 2, typ := RelType.HAS_PHONE, tgt := 20 }] }

/-- The STEP 21 row produced for `gSharedPair`. -/
def rowSharedPair : PairRow := { c1 := 1, c2 := 2, cnt := 2, weight := 13 / 2 }

/-- Clients 1 and 2 share two different SSNs (nodes 10 and 11). -/
def gTwoSSNs : Graph :=
  { nodes := [{ variant := Variant.Client, nid := 1, eid := 1 },
              { variant := Variant.Client, nid := 2, eid := 2 },
              { variant := Variant.SSN, nid := 10, eid := 10 },
              { variant := Variant.SSN, nid := 11, eid := 11 }],
    edges := [{ src := 1, typ := RelType.HAS_SSN, tgt := 10 },
              { src := 2, typ := RelType.HAS_SSN, tgt := 10 },
              { src := 1, typ := RelType.HAS_SSN, tgt := 11 },
              { src := 2, typ := RelType.HAS_SSN, tgt := 11 }] }

/-- A graph holding a stale SHARED_IDENTIFIERS edge for clients 1 and 2
(count 1, weight 1) while their current identifier edges share SSN 10, so
re-aggregation yields count 1, weight 5. -/
def gStalePair : Graph :=
  { nodes := [{ variant := Variant.Client, nid := 1, eid := 1 },
              { variant := Variant.Client, nid := 2, eid := 2 },
              { variant := Variant.SSN, nid := 10, eid := 10 }],
    edges := [{ src := 1, typ := RelType.SHARED_IDENTIFIERS, tgt := 2,
                count := some 1, weight := some 1 },
              { src := 1, typ := RelType.HAS_SSN, tgt := 10 },
              { src := 2, typ := RelType.HAS_SSN, tgt := 10 }] }

/-- A graph holding a stale SHARED_IDENTIFIERS edge for clients 1 and 2
(count 1, weight 5) while their current identifier edges share phone 20,
so re-aggregation yields count 1, weight 1.5. -/
def gStalePhone : Graph :=
  { nodes := [{ variant := Variant.Client, nid := 1, eid := 1 },
              { variant := Variant.Client, nid := 2, eid := 2 },
              { variant := Variant.Phone, nid := 20, eid := 20 }],
    edges := [{ src := 1, typ := RelType.SHARED_IDENTIFIERS, tgt := 2,
                count := some 1, weight := some 5 },
              { src := 1, typ := RelType.HAS_PHONE, tgt := 20 },
              { src := 2, typ := RelType.HAS_PHONE, tgt := 20 }] }

/-- Clients 1 and 2 share phone node 20; no SSN is shared. -/
def gPhonePair : Graph :=
  { nodes := [{ variant := Variant.Client, nid := 1, eid := 1 },
              { variant := Variant.Client, nid := 2, eid := 2 },
              { variant := Variant.Phone, nid := 20, eid := 20 }],
    edges := [{ src := 1, typ := RelType.HAS_PHONE, tgt := 20 },
              { src := 2, typ := RelType.HAS_PHONE, tgt := 20 }] }

/-- One client (property id 1) and one SSN node (property id 10), no
edges: the import graph STEP 14 runs against. -/
def gOneClientSSN : Graph :=
  { nodes := [{ variant := Variant.Client, nid := 1, eid := 1 },
              { variant := Variant.SSN, nid := 2, eid := 10 }],
    edges := [] }

/-- Two HAS_SSN rows: the first references the non-existent client id 2
(a referential gap), the second is valid. -/
def relsDangling : List (Nat × Nat) := [(2, 10), (1, 10)]

/-! ## Helper lemmas -/

theorem singleton_of_nodup_mem {α : Type} {l : List α} {a : α} (hn : l.Nodup) (hm : a ∈ l)
    (hall : ∀ x ∈ l, x = a) : l = [a] := by
  cases l with
  | nil => cases hm
  | cons x t =>
    have hxa : x = a := hall x (List.mem_cons_self x t)
    subst hxa
    cases t with
    | nil => rfl
    | cons y u =>
      exfalso
      have hyx : y = x := hall y (List.mem_cons_of_mem x (List.mem_cons_self y u))
      exact (List.nodup_cons.mp hn).1 (List.mem_cons.mpr (Or.inl hyx.symm))

theorem filterMap_none_all {α β : Type} (l : List α) (f : α → Option β)
    (h : ∀ a, f a = none) : l.filterMap f = [] := by
  induction l with
  | nil => rfl
  | cons a t ih => simp [List.filterMap_cons, h a, ih]

theorem length_filterMap_ite {α β : Type} (l : List α) (p : α → Prop) [DecidablePred p]
    (f : α → β) :
    (l.filterMap (fun a => if p a then some (f a) else none)).length =
      (l.filter (fun a => decide (p a))).length := by
  induction l with
  | nil => rfl
  | cons a t ih =>
    by_cases hp : p a
    · simp [List.filterMap_cons, List.filter_cons, hp, ih]
    · simp [List.filterMap_cons, List.filter_cons, hp, ih]

theorem maxAgg_mem_le {l : List Nat} {x : Nat} (hx : x ∈ l) :
    ∃ m, maxAgg l = some m ∧ x ≤ m := by
  induction l with
  | nil => cases hx
  | cons y t ih =>
    rcases List.mem_cons.mp hx with rfl | hmem
    · cases ht : maxAgg t with
      | none => exact ⟨x, by simp [maxAgg, ht], le_refl x⟩
      | some m => exact ⟨max x m, by simp [maxAgg, ht], le_max_left x m⟩
    · obtain ⟨m, hm, hle⟩ := ih hmem
      exact ⟨max y m, by simp [maxAgg, hm], le_trans hle (le_max_right y m)⟩

theorem weightOf_nonneg (t : RelType) : 0 ≤ weightOf t := by
  cases t <;> norm_num [weightOf]

theorem one_le_weightOf {t : RelType} (h : isIdType t = true) : 1 ≤ weightOf t := by
  cases t <;> simp [isIdType] at h <;> norm_num [weightOf]

theorem sum_weightOf_nonneg (l : List (RelType × RelType)) :
    0 ≤ (l.map (fun p => weightOf p.1)).sum := by
  induction l with
  | nil => simp
  | cons p t ih =>
    simp only [List.map_cons, List.sum_cons]
    exact add_nonneg (weightOf_nonneg p.1) ih

theorem sum_weightOf_pos {l : List (RelType × RelType)}
    (h : ∀ p ∈ l, isIdType p.1 = true) (hne : l ≠ []) :
    0 < (l.map (fun p => weightOf p.1)).sum := by
  cases l with
  | nil => exact absurd rfl hne
  | cons p t =>
    simp only [List.map_cons, List.sum_cons]
    have h1 : 1 ≤ weightOf p.1 := one_le_weightOf (h p (List.mem_cons_self p t))
    have h2 : 0 ≤ (t.map (fun p => weightOf p.1)).sum := sum_weightOf_nonneg t
    linarith

theorem contribs_fst_isIdType {es : List Edge} {c1 c2 : Nat} {p : RelType × RelType}
    (hp : p ∈ contribs (idEdgesOf es) c1 c2) : isIdType p.1 = true := by
  simp only [contribs, List.mem_flatMap] at hp
  obtain ⟨e1, he1, hin⟩ := hp
  by_cases hsrc : e1.src = c1
  · rw [if_pos hsrc] at hin
    simp only [List.mem_filterMap] at hin
    obtain ⟨e2, _, heq⟩ := hin
    by_cases hc : e2.src = c2 ∧ e2.tgt = e1.tgt
    · rw [if_pos hc] at heq
      have hp1 : p.1 = e1.typ := by rw [← Option.some.inj heq]
      rw [hp1]
      exact (List.mem_filter.mp he1).2
    · rw [if_neg hc] at heq; cases heq
  · rw [if_neg hsrc] at hin; cases hin

theorem mem_pairRowsAux {cs : List Nat} {es : List Edge} {r : PairRow}
    (h : r ∈ pairRowsAux cs es) :
    r.c1 < r.c2 ∧ (contribs es r.c1 r.c2).length ≠ 0 ∧
    r.cnt = (contribs es r.c1 r.c2).length ∧
    r.weight = ((contribs es r.c1 r.c2).map (fun p => weightOf p.1)).sum := by
  simp only [pairRowsAux, List.mem_flatMap, List.mem_filterMap] at h
  obtain ⟨c1, hc1, c2, hc2, hif⟩ := h
  by_cases h12 : c1 < c2
  · rw [if_pos h12] at hif
    by_cases h0 : (contribs es c1 c2).length = 0
    · rw [if_pos h0] at hif; cases hif
    · rw [if_neg h0] at hif
      have hr := Option.some.inj hif
      subst hr
      exact ⟨h12, h0, rfl, rfl⟩
  · rw [if_neg h12] at hif; cases hif

theorem pairRowsAux_unique {cs : List Nat} {es : List Edge} {r r2 : PairRow}
    (h : r ∈ pairRowsAux cs es) (h2 : r2 ∈ pairRowsAux cs es)
    (hc1 : r.c1 = r2.c1) (hc2 : r.c2 = r2.c2) : r = r2 := by
  obtain ⟨-, -, ha3, ha4⟩ := mem_pairRowsAux h
  obtain ⟨-, -, hb3, hb4⟩ := mem_pairRowsAux h2
  cases r with
  | mk x1 x2 x3 x4 =>
    cases r2 with
    | mk y1 y2 y3 y4 =>
      simp only at hc1 hc2 ha3 ha4 hb3 hb4
      subst hc1; subst hc2
      rw [ha3, hb3, ha4, hb4]

theorem hasSharedEdge_iff {g : Graph} {r : PairRow} :
    hasSharedEdge g r = true ↔ sharedEdgeFor r ∈ g.edges := by
  simp [hasSharedEdge, List.any_eq_true]

theorem mergeSharedEdge_nodes (g : Graph) (r : PairRow) :
    (mergeSharedEdge g r).nodes = g.nodes := by
  unfold mergeSharedEdge
  split <;> rfl

theorem mergeSharedEdge_edges (g : Graph) (r : PairRow) :
    (mergeSharedEdge g r).edges = g.edges ∨
    (hasSharedEdge g r = false ∧ (mergeSharedEdge g r).edges = g.edges ++ [sharedEdgeFor r]) := by
  by_cases h : hasSharedEdge g r = true
  · left; unfold mergeSharedEdge; rw [if_pos h]
  · right
    refine ⟨Bool.eq_false_iff.mpr h, ?_⟩
    unfold mergeSharedEdge; rw [if_neg h]

theorem foldl_merge_nodes (rows : List PairRow) (g : Graph) :
    (rows.foldl mergeSharedEdge g).nodes = g.nodes := by
  induction rows generalizing g with
  | nil => rfl
  | cons r t ih =>
    rw [List.foldl_cons, ih, mergeSharedEdge_nodes]

theorem idEdgesOf_merge (g : Graph) (r : PairRow) :
    idEdgesOf (mergeSharedEdge g r).edges = idEdgesOf g.edges := by
  rcases mergeSharedEdge_edges g r with h | ⟨-, h⟩
  · rw [h]
  · rw [h]
    unfold idEdgesOf
    rw [List.filter_append]
    simp [sharedEdgeFor, isIdType]

theorem foldl_merge_idEdges (rows : List PairRow) (g : Graph) :
    idEdgesOf (rows.foldl mergeSharedEdge g).edges = idEdgesOf g.edges := by
  induction rows generalizing g with
  | nil => rfl
  | cons r t ih =>
    rw [List.foldl_cons, ih, idEdgesOf_merge]

theorem pairRows_foldl (rows : List PairRow) (g : Graph) :
    pairRows (rows.foldl mergeSharedEdge g) = pairRows g := by
  unfold pairRows clientNids
  rw [foldl_merge_nodes, foldl_merge_idEdges]

theorem hasSharedEdge_merge_self (g : Graph) (r : PairRow) :
    hasSharedEdge (mergeSharedEdge g r) r = true := by
  by_cases h : hasSharedEdge g r = true
  · unfold mergeSharedEdge; rw [if_pos h]; exact h
  · unfold mergeSharedEdge; rw [if_neg h]
    exact hasSharedEdge_iff.mpr (List.mem_append_right _ (List.mem_singleton_self _))

theorem hasSharedEdge_merge_mono {g : Graph} {r2 : PairRow} (r : PairRow)
    (h : hasSharedEdge g r2 = true) : hasSharedEdge (mergeSharedEdge g r) r2 = true := by
  rw [hasSharedEdge_iff] at h ⊢
  rcases mergeSharedEdge_edges g r with he | ⟨-, he⟩
  · rw [he]; exact h
  · rw [he]; exact List.mem_append_left _ h

theorem hasSharedEdge_foldl_mono {rows : List PairRow} {g : Graph} {r2 : PairRow}
    (h : hasSharedEdge g r2 = true) :
    hasSharedEdge (rows.foldl mergeSharedEdge g) r2 = true := by
  induction rows generalizing g with
  | nil => exact h
  | cons r t ih => exact ih (hasSharedEdge_merge_mono r h)

theorem hasSharedEdge_foldl_self {rows : List PairRow} {g : Graph} {r : PairRow}
    (hr : r ∈ rows) : hasSharedEdge (rows.foldl mergeSharedEdge g) r = true := by
  induction rows generalizing g with
  | nil => cases hr
  | cons a t ih =>
    rcases List.mem_cons.mp hr with rfl | hmem
    · show hasSharedEdge (t.foldl mergeSharedEdge (mergeSharedEdge g r)) r = true
      exact hasSharedEdge_foldl_mono (hasSharedEdge_merge_self g r)
    · exact ih hmem

theorem foldl_merge_id {rows : List PairRow} {g : Graph}
    (h : ∀ r ∈ rows, hasSharedEdge g r = true) :
    rows.foldl mergeSharedEdge g = g := by
  induction rows with
  | nil => rfl
  | cons a t ih =>
    have ha : mergeSharedEdge g a = g := by
      unfold mergeSharedEdge; rw [if_pos (h a (List.mem_cons_self a t))]
    show t.foldl mergeSharedEdge (mergeSharedEdge g a) = g
    rw [ha]
    exact ih (fun r hr => h r (List.mem_cons_of_mem a hr))

theorem mem_foldl_merge_edges {rows : List PairRow} {g : Graph} {e : Edge}
    (h : e ∈ (rows.foldl mergeSharedEdge g).edges) :
    e ∈ g.edges ∨ ∃ r ∈ rows, e = sharedEdgeFor r := by
  induction rows generalizing g with
  | nil => exact Or.inl h
  | cons a t ih =>
    have h2 : e ∈ (t.foldl mergeSharedEdge (mergeSharedEdge g a)).edges := h
    rcases ih h2 with hm | ⟨r, hr, rfl⟩
    · rcases mergeSharedEdge_edges g a with he | ⟨-, he⟩
      · rw [he] at hm; exact Or.inl hm
      · rw [he] at hm
        rcases List.mem_append.mp hm with h1 | h1
        · exact Or.inl h1
        · exact Or.inr ⟨a, List.mem_cons_self a t, List.mem_singleton.mp h1⟩
    · exact Or.inr ⟨r, List.mem_cons_of_mem a hr, rfl⟩

theorem mem_foldl_merge_edges_mono {rows : List PairRow} {g : Graph} {e : Edge}
    (h : e ∈ g.edges) : e ∈ (rows.foldl mergeSharedEdge g).edges := by
  induction rows generalizing g with
  | nil => exact h
  | cons a t ih =>
    apply ih
    rcases mergeSharedEdge_edges g a with he | ⟨-, he⟩
    · rw [he]; exact h
    · rw [he]; exact List.mem_append_left _ h

theorem sEdges_nodup_foldl {rows : List PairRow} {g : Graph}
    (h : (sEdgesOf g.edges).Nodup) :
    (sEdgesOf (rows.foldl mergeSharedEdge g).edges).Nodup := by
  induction rows generalizing g with
  | nil => exact h
  | cons a t ih =>
    apply ih
    rcases mergeSharedEdge_edges g a with he | ⟨hfalse, he⟩
    · rw [show sEdgesOf (mergeSharedEdge g a).edges = sEdgesOf g.edges by rw [he]]
      exact h
    · have hnotmem : sharedEdgeFor a ∉ g.edges :=
        fun hmem => (Bool.eq_false_iff.mp hfalse) (hasSharedEdge_iff.mpr hmem)
      have hsplit : sEdgesOf (mergeSharedEdge g a).edges =
          sEdgesOf g.edges ++ [sharedEdgeFor a] := by
        rw [he]
        unfold sEdgesOf
        rw [List.filter_append]
        rfl
      rw [hsplit, List.nodup_append]
      refine ⟨h, List.nodup_singleton _, ?_⟩
      intro x hx hx2
      rw [List.mem_singleton.mp hx2] at hx
      exact hnotmem (List.mem_filter.mp hx).1

theorem rebuild_sEdge_char {g : Graph} {e : Edge} (hS : sEdgesOf g.edges = [])
    (he : e ∈ (rebuildIdentityLinks g).edges) (ht : e.typ = RelType.SHARED_IDENTIFIERS) :
    ∃ r ∈ pairRows g, e = sharedEdgeFor r := by
  rcases mem_foldl_merge_edges he with hm | hr
  · exfalso
    have hmem : e ∈ sEdgesOf g.edges := List.mem_filter.mpr ⟨hm, by simp [ht]⟩
    rw [hS] at hmem
    cases hmem
  · exact hr

theorem annotate_degreesFrom (g : Graph) : degreesFrom g (annotateDegrees g) := by
  intro nd hnd
  obtain ⟨a, ha, rfl⟩ := List.mem_map.mp hnd
  exact ⟨rfl, rfl⟩

theorem annotate_idem (g : Graph) :
    annotateDegrees (annotateDegrees g) = annotateDegrees g := by
  unfold annotateDegrees
  dsimp only
  congr 1
  rw [List.map_map]
  exact List.map_congr_left (fun a _ => rfl)

/-! ## The claims -/

/-- Claim C1, corrected: on a graph without SHARED_IDENTIFIERS edges the
largest-fraud-ring query of STEP 22 returns null, not 1 — the pattern
`-[:SHARED_IDENTIFIERS*]-` requires at least one relationship, so the
MATCH produces zero rows and `max(...)` aggregates nothing. -/
theorem claim_C1_no_links_returns_null (g : Graph) (hS : sEdgesOf g.edges = []) :
    largestRingSize g = none := by
  have hp : sharedPairs g = [] := by unfold sharedPairs; rw [hS]; rfl
  have hr : ∀ c, ringRow g c = none := by
    intro c
    unfold ringRow
    rw [hp]
    rfl
  unfold largestRingSize
  rw [filterMap_none_all _ _ hr]
  rfl

/-- Claim C1, counterexample to the claim as stated: two clients, no
edges at all — the query returns null, not the claimed 1. -/
theorem claim_C1_counterexample : largestRingSize gTwoClients = none := by decide

/-- Witness for claim C1's theorem at the scenario base graph. -/
theorem claim_C1_witness :
    sEdgesOf gScenario.edges = [] ∧ largestRingSize gScenario = none :=
  ⟨by decide, claim_C1_no_links_returns_null gScenario (by decide)⟩

/-- Claim C2, code bug: on the spec scenario (clients 1,2,3 share an SSN,
clients 1,4 share a phone) the ring of client 1 has exactly the 4 distinct
clients 1,2,3,4, yet the query reports a largest ring of 5: around the
1-2-3 triangle `connected` reaches `c` itself on a relationship-distinct
path, so `collect(DISTINCT connected)` already contains `c` and
`+ [c]` counts it a second time. -/
theorem claim_C2_reports_five :
    (distinctRingClients (rebuildIdentityLinks gScenario) 1).length = 4 ∧
    (distinctRingClients (rebuildIdentityLinks gScenario) 1).Perm [1, 2, 3, 4] ∧
    largestRingSize (rebuildIdentityLinks gScenario) = some 5 :=
  ⟨by decide, by decide, by decide⟩

/-- Claim C3, corrected: the STEP 21 MERGE keys on the pair together with
the freshly aggregated `count` and `weight`.  On a graph with no prior
SHARED_IDENTIFIERS edges each sharing pair therefore ends with exactly the
one freshly aggregated edge (this theorem); but a stale prior edge with
different values is not replaced — a second edge appears alongside it (see
the counterexample). -/
theorem claim_C3_fresh_exactly_one (g : Graph) (r : PairRow) (hS : sEdgesOf g.edges = [])
    (hr : r ∈ pairRows g) :
    sEdgesBetween (rebuildIdentityLinks g) r.c1 r.c2 = [sharedEdgeFor r] := by
  unfold rebuildIdentityLinks
  have hnodup : (sEdgesOf ((pairRows g).foldl mergeSharedEdge g).edges).Nodup :=
    sEdges_nodup_foldl (by rw [hS]; exact List.nodup_nil)
  have hmm : sharedEdgeFor r ∈ ((pairRows g).foldl mergeSharedEdge g).edges :=
    hasSharedEdge_iff.mp (hasSharedEdge_foldl_self hr)
  apply singleton_of_nodup_mem
  · exact List.Nodup.filter _ hnodup
  · unfold sEdgesBetween
    refine List.mem_filter.mpr ⟨List.mem_filter.mpr ⟨hmm, ?_⟩, ?_⟩
    · simp [sharedEdgeFor]
    · simp [sharedEdgeFor]
  · intro x hx
    unfold sEdgesBetween at hx
    have hx1 := List.mem_filter.mp hx
    have hx2 := List.mem_filter.mp hx1.1
    have ht : x.typ = RelType.SHARED_IDENTIFIERS := by
      have h2 := hx2.2
      simpa using h2
    obtain ⟨r2, hr2, rfl⟩ := rebuild_sEdge_char hS hx2.1 ht
    have hpred := hx1.2
    rw [decide_eq_true_eq] at hpred
    simp only [sharedEdgeFor] at hpred
    rcases hpred with ⟨hs, htg⟩ | ⟨hs, htg⟩
    · exact congrArg sharedEdgeFor (pairRowsAux_unique hr2 hr hs htg)
    · exfalso
      have h1 := (mem_pairRowsAux hr).1
      have h2 := (mem_pairRowsAux hr2).1
      omega

/-- Claim C3, counterexample to "replacing any prior edge": a stale edge
(count 1, weight 1) for clients 1-2 plus a recomputed aggregation
(count 1, weight 5) leaves TWO SHARED_IDENTIFIERS edges for the pair. -/
theorem claim_C3_counterexample :
    (sEdgesBetween (rebuildIdentityLinks gStalePair) 1 2).length = 2 := by decide

/-- Witness for claim C3's theorem: clients 1 and 2 sharing one SSN and
one phone end with exactly one derived edge. -/
theorem claim_C3_witness :
    sEdgesOf gSharedPair.edges = [] ∧ rowSharedPair ∈ pairRows gSharedPair ∧
    sEdgesBetween (rebuildIdentityLinks gSharedPair) 1 2 = [sharedEdgeFor rowSharedPair] :=
  ⟨by decide, by decide,
    claim_C3_fresh_exactly_one gSharedPair rowSharedPair (by decide) (by decide)⟩

/-- Claim C4, corrected: the STEP 22 statistics query inspects only
`(s:SSN)<-[:HAS_SSN]-` — SSN nodes.  Over those it does return the count
of multiply-held identifiers and the maximum holder count; shared phones
and emails are invisible to it (see the counterexample). -/
theorem claim_C4_ssn_only (g : Graph) :
    (sharedSSNStats g).1 =
      ((ssnNids g).filter (fun s => decide (1 < holderCountSSN g s))).length ∧
    ssnStatsMaxBound g := by
  constructor
  · exact length_filterMap_ite (ssnNids g) (fun s => 1 < holderCountSSN g s)
      (fun s => holderCountSSN g s)
  · intro s hs hgt
    have hxmem : holderCountSSN g s ∈ (ssnNids g).filterMap (fun t =>
        if 1 < holderCountSSN g t then some (holderCountSSN g t) else none) :=
      List.mem_filterMap.mpr ⟨s, hs, by rw [if_pos hgt]⟩
    obtain ⟨m, hm, hle⟩ := maxAgg_mem_le hxmem
    exact ⟨m, hm, hle⟩

/-- Claim C4, counterexample to "every identifier type": a phone shared by
two clients is a multiply-held identifier, yet the query reports zero
shared identifiers and a null maximum. -/
theorem claim_C4_counterexample :
    sharedSSNStats gPhonePair = (0, none) ∧
    specSharedIdentifierStats gPhonePair = (1, some 2) :=
  ⟨by decide, by decide⟩

/-- Witness for claim C4's theorem at the scenario base graph. -/
theorem claim_C4_witness :
    (sharedSSNStats gScenario).1 =
      ((ssnNids gScenario).filter (fun s => decide (1 < holderCountSSN gScenario s))).length ∧
    ssnStatsMaxBound gScenario :=
  claim_C4_ssn_only gScenario

/-- Claim C5, corrected: after STEP 21 runs on a graph with no prior
SHARED_IDENTIFIERS edges, every derived edge joins two distinct clients
with `count ≥ 1` and `weight > 0`, and the pair determines the edge
uniquely.  Without that precondition a stale prior edge survives next to
the freshly aggregated one (see the counterexample). -/
theorem claim_C5_invariants_on_fresh (g : Graph) (hS : sEdgesOf g.edges = []) :
    allSharedWellFormed (rebuildIdentityLinks g) ∧
    atMostOnePerPair (rebuildIdentityLinks g) := by
  constructor
  · intro e he ht
    obtain ⟨r, hr, rfl⟩ := rebuild_sEdge_char hS he ht
    obtain ⟨h12, h0, hcnt, hw⟩ := mem_pairRowsAux hr
    refine ⟨Nat.ne_of_lt h12, ⟨r.cnt, rfl, ?_⟩, ⟨r.weight, rfl, ?_⟩⟩
    · rw [hcnt]
      exact Nat.one_le_iff_ne_zero.mpr h0
    · rw [hw]
      refine sum_weightOf_pos (fun p hp => contribs_fst_isIdType hp) ?_
      intro hnil
      exact h0 (by rw [hnil]; rfl)
  · intro e1 he1 e2 he2 ht1 ht2 hpair
    obtain ⟨r1, hr1, rfl⟩ := rebuild_sEdge_char hS he1 ht1
    obtain ⟨r2, hr2, rfl⟩ := rebuild_sEdge_char hS he2 ht2
    simp only [sharedEdgeFor] at hpair
    rcases hpair with ⟨hs, htg⟩ | ⟨hs, htg⟩
    · exact congrArg sharedEdgeFor (pairRowsAux_unique hr1 hr2 hs htg)
    · exfalso
      have h1 := (mem_pairRowsAux hr1).1
      have h2 := (mem_pairRowsAux hr2).1
      omega

/-- Claim C5, counterexample to "at most one edge per pair on any input
graph": a stale edge (count 1, weight 5) for clients 1-2 plus the fresh
aggregation (count 1, weight 1.5) leaves two edges for the pair. -/
theorem claim_C5_counterexample :
    (sEdgesBetween (rebuildIdentityLinks gStalePhone) 1 2).length = 2 := by decide

/-- Witness for claim C5's theorem. -/
theorem claim_C5_witness :
    sEdgesOf gSharedPair.edges = [] ∧
    (allSharedWellFormed (rebuildIdentityLinks gSharedPair) ∧
      atMostOnePerPair (rebuildIdentityLinks gSharedPair)) :=
  ⟨by decide, claim_C5_invariants_on_fresh gSharedPair (by decide)⟩

/-- Claim C6, confirmed: every STEP 21 row carries `count` = the number of
match rows (one per pair of identifier edges into a common node, so the
same type shared twice contributes twice) and `weight` = the sum of the
table weights of the contributions; in particular one shared SSN plus one
shared phone gives count 2, weight 6.5, and two shared SSNs give count 2,
weight 10. -/
theorem claim_C6_count_weight (g : Graph) (r : PairRow) (hr : r ∈ pairRows g) :
    r.cnt = (contribs (idEdgesOf g.edges) r.c1 r.c2).length ∧
    r.weight = ((contribs (idEdgesOf g.edges) r.c1 r.c2).map (fun p => weightOf p.1)).sum ∧
    sEdgesBetween (rebuildIdentityLinks gSharedPair) 1 2 =
      [{ src := 1, typ := RelType.SHARED_IDENTIFIERS, tgt := 2,
         count := some 2, weight := some (13 / 2) }] ∧
    sEdgesBetween (rebuildIdentityLinks gTwoSSNs) 1 2 =
      [{ src := 1, typ := RelType.SHARED_IDENTIFIERS, tgt := 2,
         count := some 2, weight := some 10 }] := by
  obtain ⟨-, -, hcnt, hw⟩ := mem_pairRowsAux hr
  exact ⟨hcnt, hw, by decide, by decide⟩

/-- Witness for claim C6's theorem at the one-SSN-one-phone pair. -/
theorem claim_C6_witness :
    rowSharedPair ∈ pairRows gSharedPair ∧
    (rowSharedPair.cnt =
        (contribs (idEdgesOf gSharedPair.edges) rowSharedPair.c1 rowSharedPair.c2).length ∧
      rowSharedPair.weight =
        ((contribs (idEdgesOf gSharedPair.edges) rowSharedPair.c1 rowSharedPair.c2).map
          (fun p => weightOf p.1)).sum ∧
      sEdgesBetween (rebuildIdentityLinks gSharedPair) 1 2 =
        [{ src := 1, typ := RelType.SHARED_IDENTIFIERS, tgt := 2,
           count := some 2, weight := some (13 / 2) }] ∧
      sEdgesBetween (rebuildIdentityLinks gTwoSSNs) 1 2 =
        [{ src := 1, typ := RelType.SHARED_IDENTIFIERS, tgt := 2,
           count := some 2, weight := some 10 }]) :=
  ⟨by decide, claim_C6_count_weight gSharedPair rowSharedPair (by decide)⟩

/-- Claim C7, confirmed: STEP 21 is idempotent — a second run recomputes
identical rows from the unchanged HAS_* edges and every MERGE finds its
fully matching edge, so the graph (hence the derived edge set) is
unchanged.  This holds for every starting graph, in particular for an
unchanged base graph. -/
theorem claim_C7_idempotent (g : Graph) :
    rebuildIdentityLinks (rebuildIdentityLinks g) = rebuildIdentityLinks g := by
  unfold rebuildIdentityLinks
  rw [pairRows_foldl]
  exact foldl_merge_id (fun r hr => hasSharedEdge_foldl_self hr)

/-- Claim C8, confirmed: STEP 20 writes to every node (including degree-0
nodes) `out_degree` = the count of relationships with that node as source
and `in_degree` = the count with it as target, over all relationship
types, and running it again without graph changes yields the same
values. -/
theorem claim_C8_degree_contract (g : Graph) :
    (annotateDegrees g).nodes.length = g.nodes.length ∧
    degreesFrom g (annotateDegrees g) ∧
    annotateDegrees (annotateDegrees g) = annotateDegrees g :=
  ⟨by simp [annotateDegrees], annotate_degreesFrom g, annotate_idem g⟩

/-- Witness for claim C8's theorem at the scenario graph. -/
theorem claim_C8_witness :
    (annotateDegrees gScenario).nodes.length = gScenario.nodes.length ∧
    degreesFrom gScenario (annotateDegrees gScenario) ∧
    annotateDegrees (annotateDegrees gScenario) = annotateDegrees gScenario :=
  claim_C8_degree_contract gScenario

/-- Claim C9, corrected: a row whose client or SSN reference resolves to
no node is skipped (its MATCH clauses yield no rows), the remaining rows
are still processed, and the import does not abort — but no data-quality
warning is counted or reported: the only number STEP 14 prints is the raw
input row count. -/
theorem claim_C9_skip_no_warning (g : Graph) (rel : Nat × Nat) (rest : List (Nat × Nat))
    (h : findClientByEid g rel.1 = none ∨ findSSNByEid g rel.2 = none) :
    create_has_ssn g (rel :: rest) = create_has_ssn g rest ∧
    create_has_ssn_report (rel :: rest) = create_has_ssn_report rest + 1 := by
  constructor
  · have hstep : hasSSNStep g rel = g := by
      rcases h with h | h
      · unfold hasSSNStep
        rw [h]
      · unfold hasSSNStep
        cases hc : findClientByEid g rel.1
        · rfl
        · rw [h]
    show rest.foldl hasSSNStep (hasSSNStep g rel) = rest.foldl hasSSNStep g
    rw [hstep]
  · rfl

/-- Claim C9, counterexample to "counted and reported as a warning": with
one dangling row and one valid row, one edge is created, yet the only
reported number is 2 — the raw row count — and in particular not the
count of skipped references. -/
theorem claim_C9_counterexample :
    (create_has_ssn gOneClientSSN relsDangling).edges =
      [{ src := 1, typ := RelType.HAS_SSN, tgt := 2 }] ∧
    create_has_ssn_report relsDangling = 2 ∧ create_has_ssn_report relsDangling ≠ 1 :=
  ⟨by decide, by decide, by decide⟩

/-- Witness for claim C9's theorem: the dangling head row is a no-op. -/
theorem claim_C9_witness :
    (findClientByEid gOneClientSSN 2 = none ∨ findSSNByEid gOneClientSSN 10 = none) ∧
    (create_has_ssn gOneClientSSN ((2, 10) :: [(1, 10)]) =
        create_has_ssn gOneClientSSN [(1, 10)] ∧
      create_has_ssn_report ((2, 10) :: [(1, 10)]) = create_has_ssn_report [(1, 10)] + 1) :=
  ⟨by decide, claim_C9_skip_no_warning gOneClientSSN (2, 10) [(1, 10)] (by decide)⟩

/-- Claim C10, confirmed: STEP 21 only adds SHARED_IDENTIFIERS edges;
every node — including its STEP 20 degree attributes — is left untouched,
so after the full run the stored degrees still count exactly the direct
relationships present before STEP 21. -/
theorem claim_C10_frame (g : Graph) :
    (rebuildIdentityLinks (annotateDegrees g)).nodes = (annotateDegrees g).nodes ∧
    degreesFrom g (rebuildIdentityLinks (annotateDegrees g)) ∧
    onlyDirectOrShared g (rebuildIdentityLinks (annotateDegrees g)) := by
  refine ⟨foldl_merge_nodes _ _, ?_, ?_⟩
  · intro nd hnd
    have hnd2 : nd ∈ (annotateDegrees g).nodes := by
      rw [← foldl_merge_nodes (pairRows (annotateDegrees g)) (annotateDegrees g)]
      exact hnd
    exact annotate_degreesFrom g nd hnd2
  · intro e he
    rcases mem_foldl_merge_edges he with hm | ⟨r, -, rfl⟩
    · exact Or.inl hm
    · exact Or.inr rfl

/-- Witness for claim C10's theorem at the scenario graph. -/
theorem claim_C10_witness :
    (rebuildIdentityLinks (annotateDegrees gScenario)).nodes =
      (annotateDegrees gScenario).nodes ∧
    degreesFrom gScenario (rebuildIdentityLinks (annotateDegrees gScenario)) ∧
    onlyDirectOrShared gScenario (rebuildIdentityLinks (annotateDegrees gScenario)) :=
  claim_C10_frame gScenario

end FraudImport
